import Mathlib

/-!
Shallow embedding of the subtitle/transcription tool (crate `conv`):
the subtitle serializers and driver of `src/whisper.rs` / `src/utils.rs`,
the transcript-assembly loop of `Whisper::transcribe`, and the model
download routine `Model::download` of `src/config.rs`.

Timestamps are Rust `i64` centiseconds, embedded as `Int` with truncated
division (`Int.tdiv` / `Int.tmod`, the semantics of Rust `/` and `%`).
The `u64` progress counters are embedded as `Nat` with explicit `% 2 ^ 64`
where Rust release-mode wraparound could occur.
-/

/-- Embeds Rust `str::trim`: drop leading and trailing whitespace
characters.  Defined structurally on the character list so that it
evaluates by kernel reduction. -/
def rustTrim (s : String) : String :=
  ⟨((s.data.dropWhile Char.isWhitespace).reverse.dropWhile Char.isWhitespace).reverse⟩

/-- Character-list version of Rust `str::starts_with`. -/
def charsStartsWith : List Char → List Char → Bool
  | [], _ => true
  | _ :: _, [] => false
  | p :: ps, c :: cs => p == c && charsStartsWith ps cs

/-- Embeds Rust `str::starts_with (pat)`; structural so it evaluates by
kernel reduction. -/
def strStartsWith (s pat : String) : Bool :=
  charsStartsWith pat.data s.data

/-- Embeds the Rust `{:0w}` sign-aware zero padding of an integer: the sign
counts toward the width and zeros are inserted after the sign. -/
def padNum (width : Nat) (n : Int) : String :=
  let sign := if n < 0 then "-" else ""
  let digits := toString n.natAbs
  sign ++ ⟨List.replicate (width - sign.length - digits.length) '0'⟩ ++ digits

/-- `Utterance` of `src/whisper.rs`: one time-coded fragment.  `start` and
`end` are `i64` centiseconds; the Rust field `end` is named `end_` because
`end` is a Lean keyword. -/
structure Utterance where
  start : Int
  end_ : Int
  text : String
deriving DecidableEq

/-- `Transcript` of `src/whisper.rs`.  `processing_time` (a `Duration`)
is carried as an abstract count; it plays no role in serialization. -/
structure Transcript where
  processing_time : Nat
  utterances : List Utterance
  word_utterances : Option (List Utterance)
deriving DecidableEq

/-- The `[MM:SS.CC]` timestamp of `Transcript::to_lrc` and
`utils::as_lrc`: fields `t/100/60`, `t/100 % 60`, `t % 100`, each
zero-padded to two digits. -/
def lrcTimestamp (t : Int) : String :=
  "[" ++ padNum 2 ((t.tdiv 100).tdiv 60) ++ ":" ++ padNum 2 ((t.tdiv 100).tmod 60) ++
    "." ++ padNum 2 (t.tmod 100) ++ "]"

/-- The fold body of `Transcript::to_lrc`: appends
`[start]trimmed-text\n[end]\n` for one fragment. -/
def lrcStep (lrc : String) (fragment : Utterance) : String :=
  lrc ++ lrcTimestamp fragment.start ++ rustTrim fragment.text ++ "\n" ++
    lrcTimestamp fragment.end_ ++ "\n"

/-- `Transcript::to_lrc` (`src/whisper.rs` lines 133-151): iterates the
word utterances if present, else the utterances, and for each fragment
appends `[start]trimmed-text\n[end]\n`. -/
def Transcript.to_lrc (t : Transcript) : String :=
  (t.word_utterances.getD t.utterances).foldl lrcStep ""

/-- The `HH:MM:SS,mmm` timestamp of `Transcript::to_srt`: fields
`t/100/3600`, `t/100 % 3600 / 60`, `t/100 % 60` (two digits each) and
`t*10 % 1000` (three digits). -/
def srtTime (t : Int) : String :=
  padNum 2 ((t.tdiv 100).tdiv 3600) ++ ":" ++
    padNum 2 (((t.tdiv 100).tmod 3600).tdiv 60) ++ ":" ++
    padNum 2 ((t.tdiv 100).tmod 60) ++ "," ++
    padNum 3 ((t * 10).tmod 1000)

/-- One SRT cue as formatted by the fold body of `Transcript::to_srt`:
cue number, timestamp line, trimmed text, blank line. -/
def srtCue (i : Nat) (f : Utterance) : String :=
  toString i ++ "\n" ++ srtTime f.start ++ " --> " ++ srtTime f.end_ ++ "\n" ++
    rustTrim f.text ++ "\n\n"

/-- The fold step of `Transcript::to_srt`: increments the cue counter and
appends the cue text. -/
def srtStep (acc : Nat × String) (fragment : Utterance) : Nat × String :=
  (acc.1 + 1, acc.2 ++ srtCue acc.1 fragment)

/-- `Transcript::to_srt` (`src/whisper.rs` lines 153-177): folds over the
word utterances if present, else the utterances, starting from cue
number 1 and the empty string. -/
def Transcript.to_srt (t : Transcript) : String :=
  ((t.word_utterances.getD t.utterances).foldl srtStep ((1 : Nat), "")).2

/-- The `MM:SS.mmm` timestamp of `Transcript::to_vtt`: fields `t/100/60`,
`t/100 % 60`, `t*10 % 1000`. -/
def vttTime (t : Int) : String :=
  padNum 2 ((t.tdiv 100).tdiv 60) ++ ":" ++ padNum 2 ((t.tdiv 100).tmod 60) ++
    "." ++ padNum 3 ((t * 10).tmod 1000)

/-- `Transcript::to_vtt` (`src/whisper.rs` lines 179-197). -/
def Transcript.to_vtt (t : Transcript) : String :=
  (t.word_utterances.getD t.utterances).foldl
    (fun vtt fragment =>
      vtt ++ vttTime fragment.start ++ " --> " ++ vttTime fragment.end_ ++
        "\n- " ++ rustTrim fragment.text ++ "\n\n")
    "WEBVTT\n\n"

/-- The fold body of `utils::as_lrc`: a bare start timestamp line, then
the start timestamp again followed by the fragment text, which is NOT
trimmed there. -/
def asLrcStep (lrc : String) (fragment : Utterance) : String :=
  lrc ++ lrcTimestamp fragment.start ++ "\n" ++
    lrcTimestamp fragment.start ++ fragment.text ++ "\n"

/-- `as_lrc` of `src/utils.rs` lines 12-33. -/
def as_lrc (t : Transcript) : String :=
  (t.word_utterances.getD t.utterances).foldl asLrcStep ""

/-- `Format` of `src/whisper.rs`. -/
inductive Format where
  | Lrc
  | Srt
  | Vtt
deriving DecidableEq

/-- Models Rust `Path::with_extension` for a plain relative file name
with a nonempty stem: everything after the last `.` is replaced by the
new extension, or the extension is appended when there is no `.`. -/
def withExtension (path ext : String) : String :=
  let rev := path.data.reverse
  let stemRev := if rev.contains '.' then (rev.dropWhile (fun c => c != '.')).drop 1 else rev
  (⟨stemRev.reverse⟩ : String) ++ "." ++ ext

/-- `Transcript::write_file` (`src/whisper.rs` lines 122-131).  The file
system is abstracted: `createOk` says whether `File::create` succeeds,
and the returned list records the writes performed (the `unwrap` on a
`write_all` after a successful create is modeled as a successful write).  The
Rust return type of the function is `()`: a failed create is silently skipped
by the `if let Ok` and nothing is written. -/
def Transcript.write_file (t : Transcript) (audio : String) (format : Format)
    (createOk : Bool) : Unit × List (String × String) :=
  let ps := match format with
    | .Lrc => (withExtension audio "lrc", t.to_lrc)
    | .Srt => (withExtension audio "srt", t.to_srt)
    | .Vtt => (withExtension audio "vtt", t.to_vtt)
  if createOk then ((), [ps]) else ((), [])

/-! ## Transcription engine (`Whisper::transcribe`, `src/whisper.rs` lines 41-111)

The whisper-rs decode state is embedded as the data it exposes: a list of
segments, each with its text, its `t0`/`t1` centisecond offsets, and its
tokens (`full_get_token_text` / `full_get_token_data`).  The assembly
loop of `transcribe` is translated over that data; the per-getter error
paths merely propagate and play no role in the claims about the
assembled result. -/

/-- The `t0`/`t1` pair of `full_get_token_data`. -/
structure TokenData where
  t0 : Int
  t1 : Int
deriving DecidableEq

/-- One decoded token: its text and its timestamp data. -/
structure SegToken where
  text : String
  data : TokenData
deriving DecidableEq

/-- One decoded segment: text, `t0`, `t1`, and its tokens. -/
structure Segment where
  text : String
  t0 : Int
  t1 : Int
  tokens : List SegToken
deriving DecidableEq

/-- The inner token loop body of `Whisper::transcribe` (lines 86-103):
a token whose text starts with `"[_"` is skipped (`continue`), any other
token is pushed onto the word list. -/
def tokenStep (ws : List Utterance) (tok : SegToken) : List Utterance :=
  if strStartsWith tok.text "[_" then ws
  else ws ++ [{ start := tok.data.t0, end_ := tok.data.t1, text := tok.text }]

/-- The per-segment body of `Whisper::transcribe` (lines 65-104): push
the segment utterance; when word timestamps are off, `continue`;
otherwise run the token loop. -/
def segStep (word_timestamps : Bool) (acc : List Utterance × List Utterance)
    (s : Segment) : List Utterance × List Utterance :=
  let utterances := acc.2 ++ [{ start := s.t0, end_ := s.t1, text := s.text }]
  if !word_timestamps then (acc.1, utterances)
  else (s.tokens.foldl tokenStep acc.1, utterances)

/-- `Whisper::transcribe` (lines 41-111) on the decoded segment data:
zero segments is the `"No segments found"` error; otherwise the segment
loop assembles `utterances` and (when requested) `word_utterances`.
`translate` only configures the decode parameters and does not affect
the assembly.  `processing_time` stands for the measured wall-clock
duration. -/
def Whisper.transcribe (segments : List Segment) (translate word_timestamps : Bool)
    (processing_time : Nat) : Except String Transcript :=
  if segments.length = 0 then .error "No segments found"
  else
    let acc := segments.foldl (segStep word_timestamps) ([], [])
    .ok { processing_time := processing_time
          utterances := acc.2
          word_utterances := if word_timestamps then some acc.1 else none }

/-- The subtitle writes performed by the driver `utils::whisper`
(`src/utils.rs` lines 39-48): on a successful transcription it writes
the LRC text of `as_lrc` and an SRT rendering next to the audio file; on
a failed one the `if let Ok` guard writes nothing. -/
def utilsWhisperWrites (res : Except String Transcript) (path : String) :
    List (String × String) :=
  match res with
  | .ok t => [(withExtension path "lrc", as_lrc t), (withExtension path "srt", t.to_srt)]
  | .error _ => []

/-! ## Model store (`Model::download`, `src/config.rs` lines 365-404)

The statics `DOWNLOADING` (`AtomicBool`), `FILE_SIZE` and `DOWNLOADED`
(`AtomicU64`, idle values `!0` and `0`) form the progress state, passed
explicitly.  The network is embedded as the data the code consumes: an
optional response (`none` = `send()` failed) carrying an optional
content length and a stream of chunk events.  A chunk event records
whether the cancellation check (`!DOWNLOADING.load()`) observed the flag
cleared at that boundary, and the chunk payload (`none` = the stream
yielded an `Err` item). -/

/-- The `u64` `!0` sentinel that `FILE_SIZE` holds when idle. -/
def U64_SENTINEL : Nat := 2 ^ 64 - 1

/-- The shared download progress state: `DOWNLOADING`, `FILE_SIZE`,
`DOWNLOADED` of `src/config.rs`. -/
structure Progress where
  downloading : Bool
  file_size : Nat
  downloaded : Nat
deriving DecidableEq

/-- The idle progress state: inactive, `FILE_SIZE = !0`, `DOWNLOADED = 0`. -/
def idleProgress : Progress :=
  { downloading := false, file_size := U64_SENTINEL, downloaded := 0 }

/-- One `stream.next()` yield: whether the cancellation check at this
chunk boundary observed the flag cleared, and the chunk bytes (`none`
when the item is a stream error). -/
structure ChunkEvent where
  cancelObserved : Bool
  item : Option (List Nat)
deriving DecidableEq

/-- The HTTP response: declared content length (a `u64` when present)
and the byte stream. -/
structure HttpResponse where
  content_length : Option Nat
  stream : List ChunkEvent
deriving DecidableEq

/-- The environment one `Model::download` call runs against: whether the
resolved cache path exists, whether `File::create` succeeds, and the
response (`none` = connect failure). -/
structure DownloadEnv where
  pathExists : Bool
  createOk : Bool
  response : Option HttpResponse
deriving DecidableEq

/-- The `std::io::Error` kinds `Model::download` produces. -/
inductive IoErr where
  | createFailed
  | notConnected
  | invalidData
deriving DecidableEq

/-- How a `Model::download` call terminates: `Ok(())`, an `Err`, or a
panic (`content_length().unwrap()` on a missing length). -/
inductive DlOutcome where
  | ok
  | ioError (k : IoErr)
  | panicked
deriving DecidableEq

/-- The observable result of a call: outcome, final progress state, the
destination file (`none` = never created, otherwise its bytes), and
whether a network request was issued. -/
structure DlResult where
  outcome : DlOutcome
  progress : Progress
  file : Option (List Nat)
  requested : Bool
deriving DecidableEq

/-- The `while let Some(item)` loop of `Model::download` (lines 389-397):
break on an observed cancellation, propagate a stream error (the `?` on
`item`, as `InvalidData`) with the state at that point, otherwise append
the chunk to the file and advance `DOWNLOADED` by the chunk length with
`u64` wraparound, clamped by `min` to `FILE_SIZE`. -/
def downloadLoop : List ChunkEvent → Progress → List Nat →
    Except (Progress × List Nat) (Progress × List Nat)
  | [], p, written => .ok (p, written)
  | ev :: rest, p, written =>
    if ev.cancelObserved then .ok (p, written)
    else
      match ev.item with
      | none => .error (p, written)
      | some chunk =>
        downloadLoop rest
          { p with downloaded := min ((p.downloaded + chunk.length) % 2 ^ 64) p.file_size }
          (written ++ chunk)

/-- `Model::download` (lines 375-403).  Mirrors the order of the code: return
`Ok` at once when the path exists; store `DOWNLOADING = true`; create
the file (the `?` on `File::create`); send the request (the `?` on
`send`, as `NotConnected`); unwrap the content length (panic when
absent); store `FILE_SIZE` then `DOWNLOADED = 0`; run the chunk loop;
on its normal or cancelled exit store `DOWNLOADING = false`,
`DOWNLOADED = 0`, `FILE_SIZE = !0` and return `Ok`.  The early `?`
returns perform none of those stores. -/
def Model.download (env : DownloadEnv) (p : Progress) : DlResult :=
  if env.pathExists then
    { outcome := .ok, progress := p, file := none, requested := false }
  else
    let p := { p with downloading := true }
    if !env.createOk then
      { outcome := .ioError .createFailed, progress := p, file := none, requested := false }
    else
      match env.response with
      | none =>
        { outcome := .ioError .notConnected, progress := p, file := some [], requested := true }
      | some resp =>
        match resp.content_length with
        | none =>
          { outcome := .panicked, progress := p, file := some [], requested := true }
        | some len =>
          match downloadLoop resp.stream { p with file_size := len, downloaded := 0 } [] with
          | .error (p, written) =>
            { outcome := .ioError .invalidData, progress := p, file := some written,
              requested := true }
          | .ok (p, written) =>
            { outcome := .ok,
              progress := { p with downloading := false, downloaded := 0, file_size := U64_SENTINEL },
              file := some written, requested := true }

/-! ## Spec-side definitions

Renderings written from the words of the claims of the specification, to be
compared with the code-side serializers, and derived views of the
transcription loop used to state its properties. -/

/-- The SRT timestamp as the spec words it: hours `t/360000`, minutes
`(t/6000) mod 60`, seconds `(t/100) mod 60`, milliseconds
`(t mod 100)*10`, padded 2/2/2/3. -/
def specSrtTime (t : Int) : String :=
  padNum 2 (t.tdiv 360000) ++ ":" ++ padNum 2 ((t.tdiv 6000).tmod 60) ++ ":" ++
    padNum 2 ((t.tdiv 100).tmod 60) ++ "," ++ padNum 3 (t.tmod 100 * 10)

/-- One SRT cue as the spec words it: cue number `i`, start and end
timestamps, trimmed text, blank line. -/
def specSrtCue (i : Nat) (f : Utterance) : String :=
  toString i ++ "\n" ++ specSrtTime f.start ++ " --> " ++ specSrtTime f.end_ ++ "\n" ++
    rustTrim f.text ++ "\n\n"

/-- The whole SRT document as the spec words it: the `i`-th fragment
(1-indexed when started at `i = 1`) gets cue number `i`. -/
def specSrtRender : Nat → List Utterance → String
  | _, [] => ""
  | i, f :: rest => specSrtCue i f ++ specSrtRender (i + 1) rest

/-- The `[MM:SS.CC]` timestamp as the spec words it: `MM = t/6000`,
`SS = (t/100) mod 60`, `CC = t mod 100`. -/
def claimLrcTime (t : Int) : String :=
  "[" ++ padNum 2 (t.tdiv 6000) ++ ":" ++ padNum 2 ((t.tdiv 100).tmod 60) ++ "." ++
    padNum 2 (t.tmod 100) ++ "]"

/-- The LRC rendering exactly as claim C2 words it: per fragment a bare
start-timestamp line, then the start timestamp followed by the trimmed
text. -/
def claimLrcRender : List Utterance → String
  | [] => ""
  | f :: rest =>
    claimLrcTime f.start ++ "\n" ++ claimLrcTime f.start ++ rustTrim f.text ++ "\n" ++
      claimLrcRender rest

/-- The LRC rendering of claim C2 for a transcript. -/
def claimLrc (t : Transcript) : String :=
  claimLrcRender (t.word_utterances.getD t.utterances)

/-- What `Transcript::to_lrc` actually emits per fragment, stated with
the spec timestamp formulas: the start timestamp with the trimmed
text, then a bare end timestamp. -/
def specLrcRender : List Utterance → String
  | [] => ""
  | f :: rest =>
    claimLrcTime f.start ++ rustTrim f.text ++ "\n" ++ claimLrcTime f.end_ ++ "\n" ++
      specLrcRender rest

/-- What `utils::as_lrc` actually emits per fragment: a bare start
timestamp, then the start timestamp with the UNTRIMMED text. -/
def specAsLrcRender : List Utterance → String
  | [] => ""
  | f :: rest =>
    claimLrcTime f.start ++ "\n" ++ claimLrcTime f.start ++ f.text ++ "\n" ++
      specAsLrcRender rest

/-- The segment-level utterance `transcribe` pushes for a segment. -/
def segUtterance (s : Segment) : Utterance :=
  { start := s.t0, end_ := s.t1, text := s.text }

/-- The surviving word utterances of one segment: its tokens with the
control tokens (text starting `"[_"`) removed, in token order. -/
def segWords (toks : List SegToken) : List Utterance :=
  (toks.filter fun tok => !(strStartsWith tok.text "[_")).map
    fun tok => { start := tok.data.t0, end_ := tok.data.t1, text := tok.text }

/-- All surviving word utterances, in segment order then token order. -/
def wordList : List Segment → List Utterance
  | [] => []
  | s :: rest => segWords s.tokens ++ wordList rest

/-- A run of successfully delivered, uncancelled chunks. -/
def goodChunks (datas : List (List Nat)) : List ChunkEvent :=
  datas.map fun d => { cancelObserved := false, item := some d }

/-- The progress update one consumed chunk performs (line 395-396 of
`src/config.rs`). -/
def advance (p : Progress) (chunk : List Nat) : Progress :=
  { p with downloaded := min ((p.downloaded + chunk.length) % 2 ^ 64) p.file_size }

/-- The extension `Transcript::write_file` selects per format. -/
def Format.extension : Format → String
  | .Lrc => "lrc"
  | .Srt => "srt"
  | .Vtt => "vtt"

/-- The subtitle text `Transcript::write_file` selects per format. -/
def Transcript.render (t : Transcript) : Format → String
  | .Lrc => t.to_lrc
  | .Srt => t.to_srt
  | .Vtt => t.to_vtt

/-- A segment whose only token is a control token; its decoded text is
non-empty, so the transcript keeps a segment utterance while every word
token is skipped. -/
def ctlSegment : Segment :=
  { text := " hi", t0 := 0, t1 := 5, tokens := [{ text := "[_EOT]", data := { t0 := 0, t1 := 5 } }] }

/-- The transcript `transcribe` assembles from `[ctlSegment]` with word
timestamps on. -/
def ctlTranscript : Transcript :=
  { processing_time := 0, utterances := [{ start := 0, end_ := 5, text := " hi" }],
    word_utterances := some [] }

/-- A download environment whose second chunk read fails. -/
def c3Env : DownloadEnv :=
  { pathExists := false, createOk := true,
    response := some { content_length := some 100,
                       stream := [{ cancelObserved := false, item := some [1, 2, 3] },
                                  { cancelObserved := false, item := none }] } }

/-- A download environment whose response reports no content length. -/
def c4Env : DownloadEnv :=
  { pathExists := false, createOk := true,
    response := some { content_length := none, stream := [] } }

/-- The single-utterance transcript of the SRT/LRC scenario of the spec. -/
def exTranscript : Transcript :=
  { processing_time := 0, utterances := [{ start := 65, end_ := 325, text := " hello " }],
    word_utterances := none }

/-- A segment with one control token followed by one ordinary token. -/
def exSeg : Segment :=
  { text := " hi", t0 := 0, t1 := 5,
    tokens := [{ text := "[_EOT]", data := { t0 := 0, t1 := 1 } },
               { text := "hi", data := { t0 := 1, t1 := 2 } }] }

/-! ## Arithmetic bridge lemmas

Rust `/` and `%` on `i64` truncate toward zero; on the nonnegative
timestamps of the claims they agree with `Nat` division, where the
compound field formulas of the code coincide with the single-division
formulas of the spec. -/

/-- On a nonnegative value the code field `t/100/3600` equals the spec
field `t/360000`. -/
theorem tdiv100_3600 (n : Nat) :
    (((n : Int)).tdiv 100).tdiv 3600 = ((n : Int)).tdiv 360000 := by
  have a : ((n : Int)).tdiv 100 = ((n / 100 : Nat) : Int) := rfl
  have b : (((n / 100 : Nat) : Int)).tdiv 3600 = ((n / 100 / 3600 : Nat) : Int) := rfl
  have c : ((n : Int)).tdiv 360000 = ((n / 360000 : Nat) : Int) := rfl
  rw [a, b, c, Nat.div_div_eq_div_mul]

/-- On a nonnegative value the code field `t/100 % 3600 / 60` equals the spec
field `(t/6000) mod 60`. -/
theorem tmod3600_60 (n : Nat) :
    ((((n : Int)).tdiv 100).tmod 3600).tdiv 60 = (((n : Int)).tdiv 6000).tmod 60 := by
  have a : ((n : Int)).tdiv 100 = ((n / 100 : Nat) : Int) := rfl
  have b : (((n / 100 : Nat) : Int)).tmod 3600 = ((n / 100 % 3600 : Nat) : Int) := rfl
  have c : (((n / 100 % 3600 : Nat) : Int)).tdiv 60 = ((n / 100 % 3600 / 60 : Nat) : Int) := rfl
  have d : ((n : Int)).tdiv 6000 = ((n / 6000 : Nat) : Int) := rfl
  have e : (((n / 6000 : Nat) : Int)).tmod 60 = ((n / 6000 % 60 : Nat) : Int) := rfl
  rw [a, b, c, d, e]
  have h3600 : (3600 : Nat) = 60 * 60 := rfl
  rw [h3600, Nat.mod_mul_right_div_self, Nat.div_div_eq_div_mul]

/-- On a nonnegative value the code field `t*10 % 1000` equals the spec
field `(t mod 100) * 10`. -/
theorem tmul10_1000 (n : Nat) :
    (((n : Int)) * 10).tmod 1000 = ((n : Int)).tmod 100 * 10 := by
  have a : ((n : Int)) * 10 = ((n * 10 : Nat) : Int) := rfl
  have b : (((n * 10 : Nat) : Int)).tmod 1000 = ((n * 10 % 1000 : Nat) : Int) := rfl
  have c : ((n : Int)).tmod 100 = ((n % 100 : Nat) : Int) := rfl
  have d : ((n % 100 : Nat) : Int) * 10 = ((n % 100 * 10 : Nat) : Int) := rfl
  rw [a, b, c, d]
  have h1000 : (1000 : Nat) = 100 * 10 := rfl
  rw [h1000, Nat.mul_mod_mul_right]

/-- On a nonnegative value the code field `t/100/60` equals the spec field `t/6000`. -/
theorem tdiv100_60 (n : Nat) :
    (((n : Int)).tdiv 100).tdiv 60 = ((n : Int)).tdiv 6000 := by
  have a : ((n : Int)).tdiv 100 = ((n / 100 : Nat) : Int) := rfl
  have b : (((n / 100 : Nat) : Int)).tdiv 60 = ((n / 100 / 60 : Nat) : Int) := rfl
  have c : ((n : Int)).tdiv 6000 = ((n / 6000 : Nat) : Int) := rfl
  rw [a, b, c, Nat.div_div_eq_div_mul]

/-- On nonnegative timestamps the code SRT timestamp equals the
spec one. -/
theorem srtTime_eq_spec (t : Int) (h : 0 ≤ t) : srtTime t = specSrtTime t := by
  obtain ⟨n, rfl⟩ : ∃ n : Nat, t = (n : Int) := ⟨t.toNat, (Int.toNat_of_nonneg h).symm⟩
  unfold srtTime specSrtTime
  rw [tdiv100_3600, tmod3600_60, tmul10_1000]

/-- On nonnegative timestamps the code LRC timestamp equals the
spec-formula one. -/
theorem lrcTimestamp_eq_claim (t : Int) (h : 0 ≤ t) : lrcTimestamp t = claimLrcTime t := by
  obtain ⟨n, rfl⟩ : ∃ n : Nat, t = (n : Int) := ⟨t.toNat, (Int.toNat_of_nonneg h).symm⟩
  unfold lrcTimestamp claimLrcTime
  rw [tdiv100_60]

/-- On nonnegative timestamps the code SRT cue equals the spec one. -/
theorem srtCue_eq_spec (i : Nat) (f : Utterance) (h0 : 0 ≤ f.start) (h1 : 0 ≤ f.end_) :
    srtCue i f = specSrtCue i f := by
  unfold srtCue specSrtCue
  rw [srtTime_eq_spec f.start h0, srtTime_eq_spec f.end_ h1]

/-! ## Fold characterizations of the serializers -/

/-- The SRT fold starting at cue `i` with prior text `s` appends the
spec rendering from `i`. -/
theorem srt_foldl_spec (frags : List Utterance) :
    ∀ (i : Nat) (s : String), (∀ f ∈ frags, 0 ≤ f.start ∧ f.start ≤ f.end_) →
      (List.foldl srtStep (i, s) frags).2 = s ++ specSrtRender i frags := by
  induction frags with
  | nil => intro i s _; simp [specSrtRender]
  | cons f rest ih =>
    intro i s h
    have hf := h f (List.mem_cons_self f rest)
    have hrest : ∀ g ∈ rest, 0 ≤ g.start ∧ g.start ≤ g.end_ :=
      fun g hg => h g (List.mem_cons_of_mem f hg)
    have step : srtStep (i, s) f = (i + 1, s ++ srtCue i f) := rfl
    rw [List.foldl_cons, step, ih (i + 1) (s ++ srtCue i f) hrest,
      srtCue_eq_spec i f hf.1 (le_trans hf.1 hf.2)]
    show s ++ specSrtCue i f ++ specSrtRender (i + 1) rest = s ++ specSrtRender i (f :: rest)
    rw [String.append_assoc]
    rfl

/-- The `to_lrc` fold appends one code-shaped line pair per fragment
(stated with the spec timestamp formulas). -/
theorem lrc_foldl_spec (frags : List Utterance) :
    ∀ s : String, (∀ f ∈ frags, 0 ≤ f.start ∧ 0 ≤ f.end_) →
      List.foldl lrcStep s frags = s ++ specLrcRender frags := by
  induction frags with
  | nil => intro s _; simp [specLrcRender]
  | cons f rest ih =>
    intro s h
    have hf := h f (List.mem_cons_self f rest)
    have hrest : ∀ g ∈ rest, 0 ≤ g.start ∧ 0 ≤ g.end_ :=
      fun g hg => h g (List.mem_cons_of_mem f hg)
    rw [List.foldl_cons, ih (lrcStep s f) hrest]
    unfold lrcStep
    rw [lrcTimestamp_eq_claim f.start hf.1, lrcTimestamp_eq_claim f.end_ hf.2]
    show s ++ claimLrcTime f.start ++ rustTrim f.text ++ "\n" ++ claimLrcTime f.end_ ++ "\n" ++
        specLrcRender rest =
      s ++ (claimLrcTime f.start ++ rustTrim f.text ++ "\n" ++ claimLrcTime f.end_ ++ "\n" ++
        specLrcRender rest)
    simp only [String.append_assoc]

/-- The `as_lrc` fold appends one line pair per fragment (stated with
the spec timestamp formulas). -/
theorem aslrc_foldl_spec (frags : List Utterance) :
    ∀ s : String, (∀ f ∈ frags, 0 ≤ f.start) →
      List.foldl asLrcStep s frags = s ++ specAsLrcRender frags := by
  induction frags with
  | nil => intro s _; simp [specAsLrcRender]
  | cons f rest ih =>
    intro s h
    have hf := h f (List.mem_cons_self f rest)
    have hrest : ∀ g ∈ rest, 0 ≤ g.start :=
      fun g hg => h g (List.mem_cons_of_mem f hg)
    rw [List.foldl_cons, ih (asLrcStep s f) hrest]
    unfold asLrcStep
    rw [lrcTimestamp_eq_claim f.start hf]
    show s ++ claimLrcTime f.start ++ "\n" ++ claimLrcTime f.start ++ f.text ++ "\n" ++
        specAsLrcRender rest =
      s ++ (claimLrcTime f.start ++ "\n" ++ claimLrcTime f.start ++ f.text ++ "\n" ++
        specAsLrcRender rest)
    simp only [String.append_assoc]

/-! ## Loop characterizations of the transcription assembly -/

/-- The token loop appends exactly the surviving (non-control) tokens of
the segment, in token order. -/
theorem tokenStep_foldl (toks : List SegToken) :
    ∀ ws : List Utterance, List.foldl tokenStep ws toks = ws ++ segWords toks := by
  induction toks with
  | nil => intro ws; simp [segWords]
  | cons tok rest ih =>
    intro ws
    rw [List.foldl_cons]
    cases hst : strStartsWith tok.text "[_" with
    | true => simp [tokenStep, hst, ih, segWords, List.filter_cons]
    | false => simp [tokenStep, hst, ih, segWords, List.filter_cons]

/-- The second component of the segment loop collects one utterance per
segment, in segment order, whatever the word-timestamp flag. -/
theorem segStep_foldl_utts (segs : List Segment) (wt : Bool) :
    ∀ acc : List Utterance × List Utterance,
      (List.foldl (segStep wt) acc segs).2 = acc.2 ++ segs.map segUtterance := by
  induction segs with
  | nil => intro acc; simp
  | cons s rest ih =>
    intro acc
    rw [List.foldl_cons, ih (segStep wt acc s)]
    have hsnd : (segStep wt acc s).2 = acc.2 ++ [segUtterance s] := by
      cases wt <;> rfl
    rw [hsnd]
    simp [segUtterance]

/-- With word timestamps on, the first component of the segment loop collects
the surviving tokens in segment order then token order. -/
theorem segStep_foldl_words (segs : List Segment) :
    ∀ acc : List Utterance × List Utterance,
      (List.foldl (segStep true) acc segs).1 = acc.1 ++ wordList segs := by
  induction segs with
  | nil => intro acc; simp [wordList]
  | cons s rest ih =>
    intro acc
    rw [List.foldl_cons, ih (segStep true acc s)]
    have hfst : (segStep true acc s).1 = acc.1 ++ segWords s.tokens := by
      show (s.tokens.foldl tokenStep acc.1) = acc.1 ++ segWords s.tokens
      exact tokenStep_foldl s.tokens acc.1
    rw [hfst]
    simp [wordList]

/-- Every utterance the token filter lets through has a text that does
not start with the control marker. -/
theorem wordList_no_control (segs : List Segment) :
    ∀ u ∈ wordList segs, strStartsWith u.text "[_" = false := by
  induction segs with
  | nil => intro u hu; simp [wordList] at hu
  | cons s rest ih =>
    intro u hu
    rw [wordList, List.mem_append] at hu
    rcases hu with hu | hu
    · unfold segWords at hu
      rw [List.mem_map] at hu
      obtain ⟨tok, htok, rfl⟩ := hu
      rw [List.mem_filter] at htok
      have := htok.2
      simpa using this
    · exact ih u hu

/-- The surviving word list is empty exactly when every token of every
segment is a control token. -/
theorem wordList_eq_nil_iff (segs : List Segment) :
    wordList segs = [] ↔
      ∀ s ∈ segs, ∀ tok ∈ s.tokens, strStartsWith tok.text "[_" = true := by
  induction segs with
  | nil => simp [wordList]
  | cons s rest ih =>
    rw [wordList, List.append_eq_nil, ih]
    unfold segWords
    rw [List.map_eq_nil_iff, List.filter_eq_nil_iff]
    constructor
    · rintro ⟨h1, h2⟩
      intro g hg tok htok
      rcases List.mem_cons.mp hg with rfl | hg
      · have := h1 tok htok
        simpa using this
      · exact h2 g hg tok htok
    · intro h
      refine ⟨fun tok htok => ?_, fun g hg tok htok => h g (List.mem_cons_of_mem s hg) tok htok⟩
      have := h s (List.mem_cons_self s rest) tok htok
      simp [this]

/-! ## Loop characterizations of the download stream -/

/-- Consuming a run of uncancelled, successfully delivered chunks
appends their bytes to the file and folds the progress update. -/
theorem downloadLoop_goodChunks (datas : List (List Nat)) :
    ∀ (rest : List ChunkEvent) (p : Progress) (written : List Nat),
      downloadLoop (goodChunks datas ++ rest) p written =
        downloadLoop rest (datas.foldl advance p) (written ++ datas.flatten) := by
  induction datas with
  | nil => intro rest p written; simp [goodChunks]
  | cons d ds ih =>
    intro rest p written
    have h1 : goodChunks (d :: ds) ++ rest =
        { cancelObserved := false, item := some d } :: (goodChunks ds ++ rest) := rfl
    have h2 : downloadLoop
        ({ cancelObserved := false, item := some d } :: (goodChunks ds ++ rest)) p written =
        downloadLoop (goodChunks ds ++ rest) (advance p d) (written ++ d) := rfl
    rw [h1, h2, ih rest (advance p d) (written ++ d), List.foldl_cons]
    simp [List.append_assoc]

/-- `advance` never touches the flag or the stored total. -/
theorem advance_foldl_fields (datas : List (List Nat)) :
    ∀ p : Progress, (datas.foldl advance p).downloading = p.downloading ∧
      (datas.foldl advance p).file_size = p.file_size := by
  induction datas with
  | nil => intro p; exact ⟨rfl, rfl⟩
  | cons d ds ih =>
    intro p
    rw [List.foldl_cons]
    exact ih (advance p d)

/-! ## Shared facts about successful transcribe calls and download runs -/

/-- A successful transcribe call yields one segment utterance per
decoded segment, in order. -/
theorem transcribe_ok_utterances (segments : List Segment) (translate wt : Bool)
    (pt : Nat) (t : Transcript)
    (h : Whisper.transcribe segments translate wt pt = .ok t) :
    t.utterances = segments.map segUtterance := by
  unfold Whisper.transcribe at h
  by_cases hlen : segments.length = 0
  · rw [if_pos hlen] at h
    exact absurd h (by simp)
  · rw [if_neg hlen] at h
    have h2 := Except.ok.inj h
    rw [← h2]
    show (List.foldl (segStep wt) ([], []) segments).2 = segments.map segUtterance
    rw [segStep_foldl_utts segments wt ([], [])]
    simp

/-- A successful transcribe call with word timestamps on yields exactly
the surviving tokens as `word_utterances`. -/
theorem transcribe_ok_word_utterances (segments : List Segment) (translate : Bool)
    (pt : Nat) (t : Transcript)
    (h : Whisper.transcribe segments translate true pt = .ok t) :
    t.word_utterances = some (wordList segments) := by
  unfold Whisper.transcribe at h
  by_cases hlen : segments.length = 0
  · rw [if_pos hlen] at h
    exact absurd h (by simp)
  · rw [if_neg hlen] at h
    have h2 := Except.ok.inj h
    rw [← h2]
    show (if true = true then some ((List.foldl (segStep true) ([], []) segments).1) else none) =
      some (wordList segments)
    rw [if_pos rfl, segStep_foldl_words segments ([], [])]
    simp

/-- A download against an existing response with a known content length
reduces to the chunk loop started on the active progress state. -/
theorem download_streaming (p : Progress) (cl : Nat) (stream : List ChunkEvent) :
    Model.download ⟨false, true, some ⟨some cl, stream⟩⟩ p =
      match downloadLoop stream ⟨true, cl, 0⟩ [] with
      | .error (q, written) => ⟨.ioError .invalidData, q, some written, true⟩
      | .ok (_, written) => ⟨.ok, ⟨false, U64_SENTINEL, 0⟩, some written, true⟩ := rfl

/-! ## Claim theorems -/

/-- C1: for every Transcript whose rendered fragments (word utterances
if present, else utterances) all satisfy `0 ≤ start ≤ end`, `to_srt` is
exactly the spec rendering — the `i`-th fragment (1-indexed) gets cue
number `i`, then an `HH:MM:SS,mmm --> HH:MM:SS,mmm` line with hours
`t/360000`, minutes `(t/6000) mod 60`, seconds `(t/100) mod 60`,
milliseconds `(t mod 100)*10` padded 2/2/2/3, then the trimmed text,
then a blank line — and in particular the single-utterance scenario
`{start:65, end:325, text:" hello "}` renders exactly
`1\n00:00:00,650 --> 00:00:03,250\nhello\n\n`. -/
theorem srt_rendering_correct :
    (∀ t : Transcript,
      (∀ f ∈ t.word_utterances.getD t.utterances, 0 ≤ f.start ∧ f.start ≤ f.end_) →
      t.to_srt = specSrtRender 1 (t.word_utterances.getD t.utterances)) ∧
    exTranscript.to_srt = "1\n00:00:00,650 --> 00:00:03,250\nhello\n\n" := by
  constructor
  · intro t h
    show (List.foldl srtStep (1, "") (t.word_utterances.getD t.utterances)).2 = _
    rw [srt_foldl_spec _ 1 "" h]
    exact String.empty_append _
  · decide

/-- Witness for C1 at the scenario transcript. -/
theorem srt_rendering_correct_witness :
    exTranscript.to_srt =
      specSrtRender 1 (exTranscript.word_utterances.getD exTranscript.utterances) :=
  srt_rendering_correct.1 exTranscript (by decide)

/-- C2 counterexample: on the transcript with the single utterance
`{start:65, end:325, text:" hello "}`, neither `Transcript::to_lrc` nor
`utils::as_lrc` produces the rendering the claim describes (a bare start
timestamp line followed by the start timestamp with the trimmed text):
`to_lrc` puts the trimmed text on the FIRST line and follows it with a
bare END timestamp, and `as_lrc` uses the claimed line order but does
not trim the text. -/
theorem lrc_claim_counterexample :
    exTranscript.to_lrc ≠ claimLrc exTranscript ∧
    as_lrc exTranscript ≠ claimLrc exTranscript := by
  constructor <;> decide

/-- C2 (amended): for every Transcript whose rendered fragments have
nonnegative `start` and `end`, `Transcript::to_lrc` emits per fragment
`[MM:SS.CC]<trimmed text>` with the fragment START followed on the
next line by a bare `[MM:SS.CC]` with the fragment END, while
`utils::as_lrc` emits a bare start timestamp line followed by the start
timestamp with the UNTRIMMED text; both with `MM = t/6000`,
`SS = (t/100) mod 60`, `CC = t mod 100`. -/
theorem lrc_rendering_amended (t : Transcript)
    (h : ∀ f ∈ t.word_utterances.getD t.utterances, 0 ≤ f.start ∧ 0 ≤ f.end_) :
    t.to_lrc = specLrcRender (t.word_utterances.getD t.utterances) ∧
    as_lrc t = specAsLrcRender (t.word_utterances.getD t.utterances) := by
  constructor
  · show List.foldl lrcStep "" _ = _
    rw [lrc_foldl_spec _ "" h]
    exact String.empty_append _
  · show List.foldl asLrcStep "" _ = _
    rw [aslrc_foldl_spec _ "" (fun f hf => (h f hf).1)]
    exact String.empty_append _

/-- Witness for the amended C2 at the scenario transcript. -/
theorem lrc_rendering_amended_witness :
    exTranscript.to_lrc =
      specLrcRender (exTranscript.word_utterances.getD exTranscript.utterances) ∧
    as_lrc exTranscript =
      specAsLrcRender (exTranscript.word_utterances.getD exTranscript.utterances) :=
  lrc_rendering_amended exTranscript (by decide)

/-- C5: for every transcribe call with word timestamps on that succeeds,
`word_utterances` is exactly the decoded tokens with every token whose
text starts with `"[_"` removed — so no surviving entry starts with the
control marker, and the survivors appear in segment order then token
order. -/
theorem transcribe_filters_control_tokens (segments : List Segment) (translate : Bool)
    (pt : Nat) (t : Transcript)
    (h : Whisper.transcribe segments translate true pt = .ok t) :
    t.word_utterances = some (wordList segments) ∧
    ∀ u ∈ wordList segments, strStartsWith u.text "[_" = false :=
  ⟨transcribe_ok_word_utterances segments translate pt t h, wordList_no_control segments⟩

/-- Witness for C5 on a segment with one control token and one ordinary
token. -/
theorem transcribe_filters_control_tokens_witness :
    (Transcript.mk 0 [⟨0, 5, " hi"⟩] (some [⟨1, 2, "hi"⟩])).word_utterances =
      some (wordList [exSeg]) ∧
    ∀ u ∈ wordList [exSeg], strStartsWith u.text "[_" = false :=
  transcribe_filters_control_tokens [exSeg] false 0
    ⟨0, [⟨0, 5, " hi"⟩], some [⟨1, 2, "hi"⟩]⟩ rfl

/-- C6: a decode with zero segments makes `transcribe` return the
`"No segments found"` error; a successful call never carries an empty
`utterances` list; and on the zero-segment failure the driver
`utils::whisper` writes no subtitle files. -/
theorem transcribe_empty_is_error :
    (∀ (translate wt : Bool) (pt : Nat),
        Whisper.transcribe [] translate wt pt = .error "No segments found") ∧
    (∀ (segments : List Segment) (translate wt : Bool) (pt : Nat) (t : Transcript),
        Whisper.transcribe segments translate wt pt = .ok t → t.utterances ≠ []) ∧
    (∀ (translate wt : Bool) (pt : Nat) (path : String),
        utilsWhisperWrites (Whisper.transcribe [] translate wt pt) path = []) := by
  refine ⟨fun _ _ _ => rfl, ?_, fun _ _ _ _ => rfl⟩
  intro segments translate wt pt t h
  rw [transcribe_ok_utterances segments translate wt pt t h]
  intro hnil
  rw [List.map_eq_nil_iff] at hnil
  subst hnil
  exact absurd h (by simp [Whisper.transcribe])

/-- Witness for the success branch of C6 at a one-segment call. -/
theorem transcribe_empty_is_error_witness :
    (Transcript.mk 0 [⟨0, 5, " hi"⟩] (some [⟨1, 2, "hi"⟩])).utterances ≠ [] :=
  transcribe_empty_is_error.2.1 [exSeg] false true 0
    ⟨0, [⟨0, 5, " hi"⟩], some [⟨1, 2, "hi"⟩]⟩ rfl

/-- C7 counterexample: transcribing one segment whose only token is the
control token `"[_EOT]"` succeeds with a non-empty `utterances` list but
`word_utterances = some []` — `word_utterances` is present yet empty
while `utterances` is non-empty. -/
theorem word_utterances_empty_counterexample :
    Whisper.transcribe [ctlSegment] false true 0 = .ok ctlTranscript ∧
    ctlTranscript.utterances ≠ [] ∧
    ctlTranscript.word_utterances = some [] :=
  ⟨rfl, by decide, rfl⟩

/-- C7 (amended): for every successful transcribe call with word
timestamps on, `word_utterances` is present, but it may be empty even
when `utterances` is non-empty: it is empty exactly when every decoded
token of every segment starts with the control marker `"[_"`. -/
theorem word_utterances_amended (segments : List Segment) (translate : Bool)
    (pt : Nat) (t : Transcript)
    (h : Whisper.transcribe segments translate true pt = .ok t) :
    t.word_utterances.isSome = true ∧
    (t.word_utterances = some [] ↔
      ∀ s ∈ segments, ∀ tok ∈ s.tokens, strStartsWith tok.text "[_" = true) := by
  rw [transcribe_ok_word_utterances segments translate pt t h]
  exact ⟨rfl, by simp only [Option.some.injEq]; exact wordList_eq_nil_iff segments⟩

/-- Witness for the amended C7 at the control-token-only segment. -/
theorem word_utterances_amended_witness :
    ctlTranscript.word_utterances.isSome = true ∧
    (ctlTranscript.word_utterances = some [] ↔
      ∀ s ∈ [ctlSegment], ∀ tok ∈ s.tokens, strStartsWith tok.text "[_" = true) :=
  word_utterances_amended [ctlSegment] false 0 ctlTranscript rfl

/-- C3 counterexample: with a 100-byte content length, one delivered
chunk `[1,2,3]` and then a failing chunk read, `Model::download` returns
the typed `InvalidData` error and leaves the partial file, but the
shared progress state is NOT reset to idle before returning: the active
flag is still set and the counters keep their in-flight values. -/
theorem download_error_leaves_progress_counterexample :
    (Model.download c3Env idleProgress).outcome = .ioError .invalidData ∧
    (Model.download c3Env idleProgress).file = some [1, 2, 3] ∧
    (Model.download c3Env idleProgress).progress ≠ idleProgress ∧
    (Model.download c3Env idleProgress).progress.downloading = true := by
  refine ⟨rfl, rfl, by decide, rfl⟩

/-- C3 (amended): a connect failure returns the typed `NotConnected`
error and a chunk-read failure the typed `InvalidData` error, and in
both cases the partially written file is left in place — but the early
`?` returns skip the reset stores, so the progress state is NOT reset to
idle: the active flag stays set (and after a stream failure the stored
total is still the content length). -/
theorem download_error_amended :
    (∀ p : Progress,
        (Model.download ⟨false, true, none⟩ p).outcome = .ioError .notConnected ∧
        (Model.download ⟨false, true, none⟩ p).file = some [] ∧
        (Model.download ⟨false, true, none⟩ p).progress.downloading = true) ∧
    (∀ (p : Progress) (cl : Nat) (datas : List (List Nat)) (rest : List ChunkEvent),
        (Model.download ⟨false, true,
            some ⟨some cl, goodChunks datas ++ ⟨false, none⟩ :: rest⟩⟩ p).outcome =
          .ioError .invalidData ∧
        (Model.download ⟨false, true,
            some ⟨some cl, goodChunks datas ++ ⟨false, none⟩ :: rest⟩⟩ p).file =
          some datas.flatten ∧
        (Model.download ⟨false, true,
            some ⟨some cl, goodChunks datas ++ ⟨false, none⟩ :: rest⟩⟩ p).progress.downloading =
          true ∧
        (Model.download ⟨false, true,
            some ⟨some cl, goodChunks datas ++ ⟨false, none⟩ :: rest⟩⟩ p).progress.file_size =
          cl) := by
  constructor
  · intro p
    exact ⟨rfl, rfl, rfl⟩
  · intro p cl datas rest
    rw [download_streaming, downloadLoop_goodChunks]
    have hloop : downloadLoop ((⟨false, none⟩ : ChunkEvent) :: rest)
        (datas.foldl advance ⟨true, cl, 0⟩) ([] ++ datas.flatten) =
        .error (datas.foldl advance ⟨true, cl, 0⟩, [] ++ datas.flatten) := rfl
    rw [hloop]
    refine ⟨rfl, by simp, ?_, ?_⟩
    · exact (advance_foldl_fields datas ⟨true, cl, 0⟩).1
    · exact (advance_foldl_fields datas ⟨true, cl, 0⟩).2

/-- C4 counterexample: when the response carries no content length,
`Model::download` does not return any value at all — the
`content_length().unwrap()` panics — so it neither succeeds nor returns
a typed error. -/
theorem download_no_length_counterexample :
    (Model.download c4Env idleProgress).outcome = .panicked ∧
    (Model.download c4Env idleProgress).outcome ≠ .ok ∧
    ∀ k : IoErr, (Model.download c4Env idleProgress).outcome ≠ .ioError k := by
  refine ⟨rfl, by decide, ?_⟩
  intro k
  cases k <;> decide

/-- C4 (amended): if the HTTP response reports no content length,
`Model::download` panics on the `unwrap` (after the request was issued
and an empty file created), leaving the active flag set; it does not
succeed and does not return an error value. -/
theorem download_missing_length_amended (p : Progress) (stream : List ChunkEvent) :
    Model.download ⟨false, true, some ⟨none, stream⟩⟩ p =
      ⟨.panicked, { p with downloading := true }, some [], true⟩ := rfl

/-- C8: if the resolved cache path already exists, `Model::download`
returns success immediately: no network request is issued, the file is
untouched, and the progress state is returned unchanged — so a second
acquisition of an already-present artifact performs zero network
requests. -/
theorem download_cached_idempotent (env : DownloadEnv) (p : Progress)
    (h : env.pathExists = true) :
    Model.download env p = ⟨.ok, p, none, false⟩ := by
  simp [Model.download, h]

/-- Witness for C8 at a concrete environment with an existing path. -/
theorem download_cached_idempotent_witness :
    Model.download ⟨true, true, none⟩ idleProgress = ⟨.ok, idleProgress, none, false⟩ :=
  download_cached_idempotent ⟨true, true, none⟩ idleProgress rfl

/-- C9: when the cancellation flag is observed cleared at a chunk
boundary, `Model::download` stops reading (the rest of the stream is
irrelevant), keeps the bytes already written on disk, resets the
progress state to idle (`downloaded = 0`, `total = !0`, flag cleared),
and returns success. -/
theorem download_cancel_resets (p : Progress) (cl : Nat) (datas : List (List Nat))
    (ev : ChunkEvent) (rest : List ChunkEvent) (h : ev.cancelObserved = true) :
    Model.download ⟨false, true, some ⟨some cl, goodChunks datas ++ ev :: rest⟩⟩ p =
      ⟨.ok, idleProgress, some datas.flatten, true⟩ := by
  rw [download_streaming, downloadLoop_goodChunks]
  have hloop : downloadLoop (ev :: rest) (datas.foldl advance ⟨true, cl, 0⟩)
      ([] ++ datas.flatten) =
      .ok (datas.foldl advance ⟨true, cl, 0⟩, [] ++ datas.flatten) := by
    rw [downloadLoop]
    rw [if_pos h]
  rw [hloop]
  show (⟨.ok, ⟨false, U64_SENTINEL, 0⟩, some ([] ++ datas.flatten), true⟩ : DlResult) = _
  simp [idleProgress]

/-- Witness for C9: cancelling after one delivered chunk. -/
theorem download_cancel_resets_witness :
    Model.download ⟨false, true,
        some ⟨some 100, goodChunks [[1, 2]] ++
          (⟨true, some [9]⟩ : ChunkEvent) :: [⟨false, some [7]⟩]⟩⟩ idleProgress =
      ⟨.ok, idleProgress, some (List.flatten [[1, 2]]), true⟩ :=
  download_cancel_resets idleProgress 100 [[1, 2]] ⟨true, some [9]⟩ [⟨false, some [7]⟩] rfl

/-- C10: `Transcript::write_file` never reports failure — it always
returns unit; the output path is the audio path with its extension
replaced by lrc/srt/vtt; and if creating the file fails it returns
normally having written nothing, silently discarding the error (when the
create succeeds it writes exactly the selected rendering at that
path). -/
theorem write_file_total (t : Transcript) (audio : String) (format : Format) :
    (∀ createOk : Bool, (t.write_file audio format createOk).1 = ()) ∧
    (t.write_file audio format false).2 = [] ∧
    (t.write_file audio format true).2 =
      [(withExtension audio format.extension, t.render format)] := by
  refine ⟨fun _ => rfl, ?_, ?_⟩ <;> cases format <;> rfl
